import Mathlib

/-!
Verification of the hf-papers research pipeline
(`src/research_crew/tools/arxiv_tools.py`, `summarizer_tool.py`,
`supabase_tool.py`) against its natural-language specification.

Python records are modelled as ordered association lists of `String × PyVal`
mirroring Python dicts; machine behaviour (dict `get`, `update`, truthiness,
`str.lower`, `str.strip`, slicing, `difflib.SequenceMatcher.ratio`) is
embedded faithfully below.
-/

/-- A Python value as it occurs in the pipeline's records: a string, a list,
or `None`. -/
inductive PyVal where
  | vStr : String → PyVal
  | vList : List PyVal → PyVal
  | vNone : PyVal

/-- Python `value is None`. -/
def PyVal.isNone : PyVal → Bool
  | .vNone => true
  | _ => false

/-- A Python dict with string keys, in insertion order. -/
abbrev Dict := List (String × PyVal)

/-- First binding of key `k`, mirroring Python dict lookup. -/
def Dict.find? (d : Dict) (k : String) : Option PyVal :=
  match d with
  | [] => none
  | (k₁, v) :: t => if k₁ = k then some v else Dict.find? t k

/-- Python `k in d`. -/
def Dict.containsKey (d : Dict) (k : String) : Bool :=
  (d.find? k).isSome

/-- Python `d.get(k, default)`: the stored value (even if `None`) when the key
is present, the default otherwise. -/
def pyGetD (d : Dict) (k : String) (default : PyVal) : PyVal :=
  match d.find? k with
  | some v => v
  | none => default

/-- Python `d.get(k)`. -/
def pyGet (d : Dict) (k : String) : PyVal :=
  pyGetD d k .vNone

/-- Python `d[k] = v`: replace the first binding of `k` in place, or append. -/
def Dict.set (d : Dict) (k : String) (v : PyVal) : Dict :=
  match d with
  | [] => [(k, v)]
  | (k₁, v₁) :: t => if k₁ = k then (k, v) :: t else (k₁, v₁) :: Dict.set t k v

/-- Python `d.update(other)`: assign every binding of `other` into `d`, in
`other`'s order. -/
def Dict.update (d other : Dict) : Dict :=
  other.foldl (fun acc kv => acc.set kv.1 kv.2) d

/-- Keys of a dict, in order. -/
def Dict.keys (d : Dict) : List String :=
  d.map Prod.fst

/-- Python truthiness of a `PyVal` (`not value` in the source): empty string,
empty list and `None` are falsy. -/
def PyVal.truthy : PyVal → Bool
  | .vStr s => !s.isEmpty
  | .vList l => !l.isEmpty
  | .vNone => false

/-- The string held by a `PyVal`, for values known to be strings
(the Python code would raise on the other constructors). -/
def PyVal.asStr : PyVal → String
  | .vStr s => s
  | _ => ""

/-- Python `str.lower()` (ASCII-faithful). -/
def pyLower (s : String) : String :=
  String.mk (s.data.map Char.toLower)

/-- Python whitespace for `str.strip()` / `str.split()`. -/
def pyIsSpace (c : Char) : Bool :=
  c = ' ' ∨ c = '\t' ∨ c = '\n' ∨ c = '\r' ∨ c = '\x0b' ∨ c = '\x0c'

/-- Python `str.strip()`. -/
def pyStrip (s : String) : String :=
  String.mk ((((s.data.dropWhile pyIsSpace).reverse).dropWhile pyIsSpace).reverse)

/-! ## `difflib.SequenceMatcher` (CPython), specialised to `isjunk = None`

`ratio()` is `2*M / (len a + len b)` where `M` is the total size of the
matching blocks found by the recursive longest-matching-block decomposition.
With `isjunk = None` the junk set is empty; `autojunk` still removes
"popular" elements from `b2j` when `len b >= 200`. -/

/-- Positions of `c` in `b` (ascending), i.e. `b2j[c]`, before junk purging. -/
def rawPositions (b : List Char) (c : Char) : List Nat :=
  (List.range b.length).filter (fun j => b.get? j = some c)

/-- `b2j` with CPython's autojunk rule: when `len b ≥ 200`, elements occurring
more than `len b / 100 + 1` times are dropped. `isjunk` is `None` here, so no
other purging happens. -/
def b2j (b : List Char) (c : Char) : List Nat :=
  let idxs := rawPositions b c
  if b.length ≥ 200 ∧ idxs.length > b.length / 100 + 1 then [] else idxs

/-- Character of `l` at `i`, total (`i` is in range at every use site that
execution reaches). -/
def charAt (l : List Char) (i : Nat) : Char :=
  l.getD i ' '

/-- Inner loop of `find_longest_match` for one `i`: walk `b2j a[i]`, skipping
`j < blo` and stopping at the first `j ≥ bhi`; build the new `j2len` and track
the best block. State: `(newj2len, besti, bestj, bestsize)`. -/
def flmInner (j2len : Nat → Nat) (blo bhi i : Nat) :
    List Nat → (Nat → Nat) × Nat × Nat × Nat → (Nat → Nat) × Nat × Nat × Nat
  | [], st => st
  | j :: js, (newj2len, besti, bestj, bestsize) =>
    if j < blo then flmInner j2len blo bhi i js (newj2len, besti, bestj, bestsize)
    else if j ≥ bhi then (newj2len, besti, bestj, bestsize)
    else
      let k := (if j = 0 then 0 else j2len (j - 1)) + 1
      let newj2len₁ := fun j₁ => if j₁ = j then k else newj2len j₁
      if k > bestsize then
        flmInner j2len blo bhi i js (newj2len₁, i + 1 - k, j + 1 - k, k)
      else
        flmInner j2len blo bhi i js (newj2len₁, besti, bestj, bestsize)

/-- Outer loop of `find_longest_match` over `i ∈ [alo, ahi)`. -/
def flmOuter (a b : List Char) (blo bhi : Nat) :
    List Nat → (Nat → Nat) × Nat × Nat × Nat → (Nat → Nat) × Nat × Nat × Nat
  | [], st => st
  | i :: is, (j2len, besti, bestj, bestsize) =>
    let st₁ := flmInner j2len blo bhi i (b2j b (charAt a i))
      (fun _ => 0, besti, bestj, bestsize)
    flmOuter a b blo bhi is st₁

/-- Extension of the best block downwards while preceding characters match
(the junk set is empty, so only the first CPython extension loop can fire). -/
def extendLow (a b : List Char) (alo blo : Nat) :
    Nat → Nat × Nat × Nat → Nat × Nat × Nat
  | 0, st => st
  | fuel + 1, (besti, bestj, bestsize) =>
    if besti > alo ∧ bestj > blo ∧ charAt a (besti - 1) = charAt b (bestj - 1) then
      extendLow a b alo blo fuel (besti - 1, bestj - 1, bestsize + 1)
    else (besti, bestj, bestsize)

/-- Extension of the best block upwards while following characters match. -/
def extendHigh (a b : List Char) (ahi bhi : Nat) :
    Nat → Nat × Nat × Nat → Nat × Nat × Nat
  | 0, st => st
  | fuel + 1, (besti, bestj, bestsize) =>
    if besti + bestsize < ahi ∧ bestj + bestsize < bhi ∧
        charAt a (besti + bestsize) = charAt b (bestj + bestsize) then
      extendHigh a b ahi bhi fuel (besti, bestj, bestsize + 1)
    else (besti, bestj, bestsize)

/-- `SequenceMatcher.find_longest_match(alo, ahi, blo, bhi)` with empty junk
set, returning `(besti, bestj, bestsize)`. -/
def findLongestMatch (a b : List Char) (alo ahi blo bhi : Nat) : Nat × Nat × Nat :=
  let st := flmOuter a b blo bhi (List.range' alo (ahi - alo)) (fun _ => 0, alo, blo, 0)
  let best := (st.2.1, st.2.2.1, st.2.2.2)
  let best := extendLow a b alo blo best.1 best
  extendHigh a b ahi bhi (ahi - (best.1 + best.2.2)) best

/-- Total size of the matching blocks of `a[alo:ahi] × b[blo:bhi]`
(the recursive decomposition underlying `get_matching_blocks`); `fuel`
bounds the recursion depth, which is at most `ahi - alo`. -/
def matchTotalAux (a b : List Char) : Nat → Nat → Nat → Nat → Nat → Nat
  | 0, _, _, _, _ => 0
  | fuel + 1, alo, ahi, blo, bhi =>
    let best := findLongestMatch a b alo ahi blo bhi
    let i := best.1
    let j := best.2.1
    let k := best.2.2
    if k = 0 then 0
    else matchTotalAux a b fuel alo i blo j + k + matchTotalAux a b fuel (i + k) ahi (j + k) bhi

/-- Total number of matched elements between `a` and `b`, i.e.
`sum(block.size for block in SequenceMatcher(None, a, b).get_matching_blocks())`. -/
def matchTotal (a b : List Char) : Nat :=
  matchTotalAux a b (a.length + 1) 0 a.length 0 b.length

/-- `SequenceMatcher(None, a, b).ratio()` as an exact rational:
`2*M / (len a + len b)`, and `1` when both are empty. -/
def ratioQ (a b : List Char) : ℚ :=
  if a.length + b.length = 0 then 1
  else (2 * matchTotal a b : ℚ) / (a.length + b.length : ℚ)

/-- The float comparison `SequenceMatcher(None, a, b).ratio() > 0.8` of the
deduplicator, as an exact integer comparison (`2M/(la+lb) > 4/5` cross
multiplied; an empty-against-empty comparison has ratio 1). -/
def similarityExceeds (a b : List Char) : Bool :=
  a.length + b.length = 0 ∨ 5 * (2 * matchTotal a b) > 4 * (a.length + b.length)

/-! ## `SmartResearchFetcher` (arxiv_tools.py, lines 214-269)

`_run(total_limit)` fetches only from the HuggingFace tool (despite its own
docstring saying it fetches from both sources when `total_limit > 0`),
deduplicates by title similarity, and truncates to `total_limit`.
The `try/except` around the HuggingFace call is modelled by an
`Except`-valued fetch result. -/

/-- `paper.get('title', '').lower()` — the lowercased title used by
`_deduplicate_papers` (callers only pass records whose title is a string; on
other values Python would raise). -/
def titleLower (p : Dict) : String :=
  pyLower (pyGetD p "title" (.vStr "")).asStr

/-- The deduplication loop of `SmartResearchFetcher._deduplicate_papers`:
`seen` is the list of already-accepted lowercased titles; a candidate is
dropped exactly when its `SequenceMatcher` ratio against some seen title
exceeds 0.8. -/
def dedupLoop (seen : List String) : List Dict → List Dict
  | [] => []
  | p :: rest =>
    let t := titleLower p
    if seen.any (fun s => similarityExceeds t.data s.data) then
      dedupLoop seen rest
    else
      p :: dedupLoop (seen ++ [t]) rest

/-- `SmartResearchFetcher._deduplicate_papers`. -/
def dedupPapers (papers : List Dict) : List Dict :=
  dedupLoop [] papers

/-- `SmartResearchFetcher._run(total_limit)`: the HuggingFace fetch result
(empty on an exception), deduplicated and truncated to `total_limit`.
No ArXiv fetch occurs. -/
def smartRun (hfResult : Except String (List Dict)) (total_limit : Nat) : List Dict :=
  let all_papers : List Dict :=
    match hfResult with
    | .ok hf_papers => hf_papers
    | .error _ => []
  (dedupPapers all_papers).take total_limit

/-! ## `OptimizedArXivTool` (arxiv_tools.py, lines 12-157)

The HTTP fetch and the per-entry XML extraction are collaborators: the fetch
is an `Except`-valued result (exception on network/HTTP/XML error), and the
per-entry extraction is an `Except`-valued `parse` function (exception on a
malformed entry). The control flow of `_run` is embedded exactly: take the
first `limit` entries, skip entries whose parse raises, return at most
`limit` papers, and return `[]` when the fetch raised. -/

/-- The entry-processing loop of `OptimizedArXivTool._run`: parse each entry,
append on success, `continue` on a caught per-entry exception. -/
def arxivLoop {Entry : Type} (parse : Entry → Except String Dict) :
    List Entry → List Dict
  | [] => []
  | e :: es =>
    match parse e with
    | .ok p => p :: arxivLoop parse es
    | .error _ => arxivLoop parse es

/-- `OptimizedArXivTool._run(limit, ...)` as a function of the fetch outcome
and the per-entry parser. -/
def arxivRun {Entry : Type} (limit : Nat) (fetch : Except String (List Entry))
    (parse : Entry → Except String Dict) : List Dict :=
  match fetch with
  | .error _ => []
  | .ok entries => (arxivLoop parse (entries.take limit)).take limit

/-! ## `OptimizedArXivTool._classify_paper` (arxiv_tools.py, lines 127-157) -/

/-- The `classification_map` of `_classify_paper`. -/
def classificationMap : List (String × String) :=
  [("cs.CV", "Computer Vision"),
   ("cs.CL", "Natural Language Processing"),
   ("cs.LG", "Machine Learning"),
   ("cs.AI", "Artificial Intelligence"),
   ("cs.NE", "Neural Computing"),
   ("stat.ML", "Statistical ML")]

/-- Lookup in `classification_map`. -/
def mapLookup (m : List (String × String)) (k : String) : Option String :=
  match m with
  | [] => none
  | (k₁, v) :: t => if k₁ = k then some v else mapLookup t k

/-- Python `word in text` (substring containment). -/
def strContains (text word : String) : Bool :=
  decide (word.data <:+: text.data)

def visionWords : List String := ["vision", "image", "visual", "cnn", "object detection"]

def nlpWords : List String := ["nlp", "language", "text", "bert", "transformer"]

def rlWords : List String := ["reinforcement", "rl", "agent", "policy"]

def deepWords : List String := ["neural", "deep", "network", "cnn", "rnn"]

/-- The category-scan loop of `_classify_paper`: return the mapped label of the
first subject tag present in `classification_map`. -/
def scanCategories : List String → Option String
  | [] => none
  | c :: cs =>
    match mapLookup classificationMap c with
    | some lbl => some lbl
    | none => scanCategories cs

/-- `OptimizedArXivTool._classify_paper(categories, title, abstract)`. -/
def classifyPaper (categories : List String) (title abstract : String) : String :=
  match scanCategories categories with
  | some lbl => lbl
  | none =>
    let text := pyLower (title ++ " " ++ abstract)
    if visionWords.any (fun w => strContains text w) then "Computer Vision"
    else if nlpWords.any (fun w => strContains text w) then "Natural Language Processing"
    else if rlWords.any (fun w => strContains text w) then "Reinforcement Learning"
    else if deepWords.any (fun w => strContains text w) then "Deep Learning"
    else "Machine Learning"

/-! ## `HuggingFaceSupplementTool` (arxiv_tools.py, lines 159-212) -/

/-- A feedparser entry as consumed by `HuggingFaceSupplementTool._run`:
`title` and `link` are attribute accesses, `summary`, `published` and
`authors` are `get`-style lookups. -/
structure HFEntry where
  title : String
  link : String
  summary : Option String
  published : Option String
  authorNames : List (Option String)

/-- The author extraction: `[author.get('name','').strip() for author in
entry.authors if author.get('name')]` (an author without a truthy name is
skipped). -/
def hfAuthors (names : List (Option String)) : List PyVal :=
  (names.filter (fun n => match n with
    | some s => !s.isEmpty
    | none => false)).map (fun n => .vStr (pyStrip (n.getD "")))

/-- The record built for one HuggingFace entry (`fetchedAt` stands for
`datetime.now().isoformat()`). -/
def hfParseEntry (fetchedAt : String) (e : HFEntry) : Dict :=
  let title := pyStrip e.title
  let abstract := pyStrip (e.summary.getD "")
  let link := pyStrip e.link
  [("title", .vStr title),
   ("abstract", .vStr abstract),
   ("paper_url", .vStr link),
   ("published_date", .vStr (e.published.getD "")),
   ("authors", .vList (hfAuthors e.authorNames)),
   ("primary_category", .vStr "Trending Research"),
   ("source", .vStr "huggingface_trending"),
   ("fetched_at", .vStr fetchedAt),
   ("technical_summary", .vStr (if abstract.length > 500
     then String.mk (abstract.data.take 500) ++ "..."
     else abstract))]

/-! ## `EnhancedSummarizerTool` (summarizer_tool.py)

The generation service (`llm.invoke`) is a collaborator: a function from the
constructed request to an `Except`-valued response (exception on a network or
service error). JSON parsing of the response (`json.loads`) is a collaborator
returning a `JsonOutcome`: a `json.JSONDecodeError` (the only exception the
source catches), a JSON object (a dict), or any other valid JSON value. -/

/-- The outcome of `json.loads(response)` as consumed by `_summarize_paper`:
`decodeError` is caught and replaced by the fallback summary; `obj d` is a
JSON object; `nonObj` is any other valid JSON value (array, string, number,
boolean, null) — on such a value the source's `field not in summary` test or
`summary[field] = ...` assignment raises a `TypeError` (or the final
`paper.update(summary)` raises a `ValueError`), and that exception
propagates out of `_summarize_paper` to be caught by `_run`. -/
inductive JsonOutcome where
  | decodeError : JsonOutcome
  | obj : Dict → JsonOutcome
  | nonObj : JsonOutcome

/-- The request assembled by `_summarize_paper`: the category, title,
abstract, and the category-specific instruction chosen from
`category_prompts`. -/
structure Prompt where
  category : PyVal
  title : PyVal
  abstract : PyVal
  instruction : String

/-- The `category_prompts` mapping of `_summarize_paper`. -/
def categoryPrompts : List (String × String) :=
  [("Computer Vision",
    "Focus on datasets used, model architecture, and visual tasks addressed."),
   ("Natural Language Processing",
    "Highlight language tasks, model types, and performance metrics."),
   ("Machine Learning",
    "Emphasize methodology, algorithms, and theoretical contributions."),
   ("Reinforcement Learning",
    "Focus on environment, reward structure, and learning algorithms."),
   ("Deep Learning",
    "Highlight architecture innovations, training techniques, and applications.")]

/-- `category_prompts.get(category, "Focus on methodology and key
contributions.")` — a dict lookup keyed by the (possibly non-string)
category value. -/
def specificPrompt (category : PyVal) : String :=
  match category with
  | .vStr s => (mapLookup categoryPrompts s).getD "Focus on methodology and key contributions."
  | _ => "Focus on methodology and key contributions."

/-- The nine summary fields required after enrichment. -/
def requiredNine : List String :=
  ["key_contributions", "methodology", "significance",
   "technical_summary", "practical_applications", "limitations",
   "category", "difficulty_level", "keywords"]

/-- The fallback summary built when `json.loads(response)` raises: the raw
response becomes `technical_summary`, list fields are empty, string fields
empty, the category is echoed and `difficulty_level` is `Intermediate`. -/
def fallbackSummary (category : PyVal) (response : String) : Dict :=
  [("key_contributions", .vList []),
   ("methodology", .vStr ""),
   ("significance", .vStr ""),
   ("technical_summary", .vStr response),
   ("practical_applications", .vStr ""),
   ("limitations", .vStr ""),
   ("category", category),
   ("difficulty_level", .vStr "Intermediate"),
   ("keywords", .vList [])]

/-- One step of the `for field in required_fields` defaulting loop:
a missing field is set to `[]` for `key_contributions`/`keywords` and `''`
otherwise. -/
def ensureStep (s : Dict) (f : String) : Dict :=
  if s.containsKey f then s
  else s.set f (if f = "key_contributions" ∨ f = "keywords"
    then .vList [] else .vStr "")

/-- The `for field in required_fields` defaulting loop of
`_summarize_paper`. -/
def ensureNine (summary : Dict) : Dict :=
  requiredNine.foldl ensureStep summary

/-- The post-response part of `_summarize_paper`: on a decode error use the
fallback, on a JSON object default the nine fields, then
`paper.update(summary)`; on any other JSON value the defaulting loop (or the
update) raises, so the exception propagates. -/
def summarizeCore (jsonParse : String → JsonOutcome) (paper : Dict)
    (response : String) : Except String Dict :=
  let category := pyGetD paper "primary_category" (.vStr "Machine Learning")
  match jsonParse response with
  | .decodeError => .ok (paper.update (ensureNine (fallbackSummary category response)))
  | .obj s => .ok (paper.update (ensureNine s))
  | .nonObj => .error "TypeError: summary is not a dict"

/-- `EnhancedSummarizerTool._summarize_paper(paper)`: build the request,
invoke the generation service, then `summarizeCore`; a service exception
propagates, as does the `TypeError` raised on a non-object JSON response. -/
def summarizePaperE (llm : Prompt → Except String String)
    (jsonParse : String → JsonOutcome) (paper : Dict) : Except String Dict :=
  let category := pyGetD paper "primary_category" (.vStr "Machine Learning")
  let title := pyGetD paper "title" (.vStr "")
  let abstract := pyGetD paper "abstract" (.vStr "")
  let prompt : Prompt :=
    { category := category, title := title, abstract := abstract,
      instruction := specificPrompt category }
  match llm prompt with
  | .error e => .error e
  | .ok response => summarizeCore jsonParse paper response

/-- `EnhancedSummarizerTool._run(papers)`: the batch loop, appending the
summary on success and the original paper when `_summarize_paper` raised. -/
def runSummarizer (llm : Prompt → Except String String)
    (jsonParse : String → JsonOutcome) : List Dict → List Dict
  | [] => []
  | p :: rest =>
    (match summarizePaperE llm jsonParse p with
     | .ok s => s
     | .error _ => p) :: runSummarizer llm jsonParse rest

/-! ## `SupabaseTool._clean_paper_data` (supabase_tool.py, lines 56-107) -/

/-- Whether a required field is string- or list-typed in `required_fields`. -/
inductive FieldTy where
  | str
  | list

/-- The `required_fields` map of `_clean_paper_data`, in dict order. -/
def requiredFields : List (String × FieldTy) :=
  [("title", .str),
   ("abstract", .str),
   ("authors", .list),
   ("primary_category", .str),
   ("technical_summary", .str)]

/-- The `optional_fields` list of `_clean_paper_data`. -/
def optionalFields : List String :=
  ["key_contributions", "methodology", "significance",
   "practical_applications", "limitations", "difficulty_level"]

/-- `value = paper.get(field); cleaned[field] = default-if-None-else-value`
for one required field. -/
def requiredValue (paper : Dict) (f : String) (ty : FieldTy) : PyVal :=
  let value := pyGet paper f
  if value.isNone then
    match ty with
    | .str => .vStr ""
    | .list => .vList []
  else value

/-- The first loop of `_clean_paper_data`: build `cleaned_paper` from the
five required fields. -/
def cleanedRequired (paper : Dict) : Dict :=
  requiredFields.foldl
    (fun acc fty => acc.set fty.1 (requiredValue paper fty.1 fty.2)) []

/-- One step of the optional-field loop of `_clean_paper_data`:
`if field in paper: cleaned_paper[field] = paper[field]`. -/
def optStep (paper acc : Dict) (f : String) : Dict :=
  if paper.containsKey f then acc.set f (pyGet paper f) else acc

/-- `cleaned_paper` after both loops of `_clean_paper_data`. -/
def cleanedAll (paper : Dict) : Dict :=
  optionalFields.foldl (optStep paper) (cleanedRequired paper)

/-- `SupabaseTool._clean_paper_data(paper)`: default the five required
fields, copy the optional fields that are present, and reject the record
when title or abstract is falsy afterwards. -/
def cleanPaperData (paper : Dict) : Option Dict :=
  if !(pyGet (cleanedAll paper) "title").truthy
      || !(pyGet (cleanedAll paper) "abstract").truthy then
    none
  else
    some (cleanedAll paper)

/-! ## Claim-side definition for C2: whitespace normalization

The C2 claim speaks of titles "compared case-insensitively and
whitespace-normalized". Modelled from the spec: normalization collapses
whitespace runs and strips the ends (`" ".join(s.split())`), after
lowercasing; the code itself performs no whitespace normalization. -/

/-- Split on whitespace, dropping empty fragments (Python `s.split()`). -/
def pySplitWs (l : List Char) : List (List Char) :=
  (l.splitOnP pyIsSpace).filter (fun w => w ≠ [])

/-- Modelled from the spec: the claim's "whitespace-normalized,
case-insensitive" form of a title. -/
def wsNormalized (s : String) : List Char :=
  (List.intercalate [' '] (pySplitWs (pyLower s).data))

/-- The claim's comparison key for a record: its whitespace-normalized,
lowercased title. -/
def normTitle (p : Dict) : List Char :=
  wsNormalized (pyGetD p "title" (.vStr "")).asStr

/-- The similarity relation guaranteed between an accepted record and every
record accepted before it: the ratio the deduplicator computed (candidate
first, seen title second) does not exceed 0.8. -/
def dedupRel (p q : Dict) : Prop :=
  ratioQ (titleLower q).data (titleLower p).data ≤ 4 / 5

/-- The eight labels `_classify_paper` can produce. -/
def classifyLabels : List String :=
  ["Computer Vision", "Natural Language Processing", "Machine Learning",
   "Artificial Intelligence", "Neural Computing", "Statistical ML",
   "Reinforcement Learning", "Deep Learning"]

/-- The word-match test used by the keyword fallback of `_classify_paper`. -/
def anyWord (ws : List String) (title abstract : String) : Bool :=
  ws.any (fun w => strContains (pyLower (title ++ " " ++ abstract)) w)

def hfShortEntry : HFEntry :=
  ⟨"Paper A", "http://x", some "a short abstract", some "2024-01-01", [some "Ann"]⟩

def hfLongEntry : HFEntry :=
  ⟨"Paper B", "http://y", some (String.mk (List.replicate 501 'a')), none, []⟩

def failPaper : Dict := [("title", .vStr "Fail me"), ("abstract", .vStr "A1")]

def okPaper : Dict := [("title", .vStr "Ok one"), ("abstract", .vStr "A2")]

/-- The enriched record `_summarize_paper` produces for `okPaper` when the
service answers `"raw response"` and JSON parsing raises a decode error. -/
def okEnriched : Dict :=
  okPaper.update (ensureNine (fallbackSummary (.vStr "Machine Learning") "raw response"))

/-- A generation service that raises on `failPaper` and answers otherwise. -/
def llmPartial : Prompt → Except String String := fun pr =>
  match pr.title with
  | .vStr s => if s = "Fail me" then .error "service down" else .ok "raw response"
  | _ => .ok "raw response"

/-- A parse collaborator whose every response raises `json.JSONDecodeError`
(the response text is not valid JSON). -/
def jpNone : String → JsonOutcome := fun _ => .decodeError

/-- `json.loads` on the response `"[1]"`: valid JSON, but a list rather than
an object (any other response modelled as a decode error). -/
def jpArray : String → JsonOutcome := fun r =>
  if r = "[1]" then .nonObj else .decodeError

/-- A generation service that succeeds on every record, answering the valid
JSON array text `"[1]"`. -/
def llmArray : Prompt → Except String String := fun _ => .ok "[1]"

def c7paper : Dict := [("title", .vStr "solo paper")]

def goodPaper : Dict := [("title", .vStr "T"), ("abstract", .vStr "A")]

def c10paper : Dict :=
  [("title", .vStr "T"), ("abstract", .vStr "A"), ("paper_url", .vStr "u"),
   ("keywords", .vList []), ("methodology", .vStr "m")]

def c8paper : Dict := [("title", .vStr "P"), ("primary_category", .vStr "Machine Learning")]

def c2r1 : Dict := [("title", .vStr "ab")]

def c2r2 : Dict := [("title", .vStr "ab                              ")]

def c1hfA : Dict := [("title", .vStr "aaaa"), ("source", .vStr "huggingface_trending")]

def c1hfB : Dict := [("title", .vStr "zzzz"), ("source", .vStr "huggingface_trending")]

/-! ## Lemmas and claim theorems -/

theorem similarityExceeds_iff (a b : List Char) :
    similarityExceeds a b = true ↔ ratioQ a b > 4 / 5 := by
  unfold similarityExceeds ratioQ
  by_cases h : a.length + b.length = 0
  · simp [h]
    norm_num
  · have hpos : 0 < a.length + b.length := Nat.pos_of_ne_zero h
    have hposQ : (0 : ℚ) < (a.length : ℚ) + (b.length : ℚ) := by exact_mod_cast hpos
    simp [h]
    rw [div_lt_div_iff₀ (by norm_num) hposQ]
    constructor
    · intro h1
      have h2 := (Nat.cast_lt (α := ℚ)).mpr h1
      push_cast at h2 ⊢
      linarith
    · intro h1
      have h2 : (4 * (a.length + b.length) : ℚ) < (5 * (2 * matchTotal a b) : ℚ) := by
        push_cast at h1 ⊢
        linarith
      exact_mod_cast h2

/-! ## Dict lemmas -/

theorem Dict.find?_set (d : Dict) (k k₁ : String) (v : PyVal) :
    (d.set k v).find? k₁ = if k₁ = k then some v else d.find? k₁ := by
  induction d with
  | nil =>
    simp only [Dict.set, Dict.find?]
    by_cases h : k = k₁
    · subst h
      simp
    · simp [h, Ne.symm h]
  | cons hd t ih =>
    obtain ⟨k₂, v₂⟩ := hd
    by_cases h₂ : k₂ = k
    · subst h₂
      simp only [Dict.set, if_pos rfl, Dict.find?]
      by_cases h : k₂ = k₁
      · subst h
        simp
      · simp [h, Ne.symm h]
    · simp only [Dict.set, if_neg h₂, Dict.find?]
      by_cases h : k₂ = k₁
      · subst h
        simp [h₂]
      · simp [h, ih]

theorem Dict.containsKey_set (d : Dict) (k k₁ : String) (v : PyVal) :
    (d.set k v).containsKey k₁ = (k₁ = k || d.containsKey k₁) := by
  by_cases h : k₁ = k <;> simp [Dict.containsKey, Dict.find?_set, h]

theorem Dict.containsKey_update_left (d o : Dict) (k : String)
    (h : d.containsKey k = true) : (d.update o).containsKey k = true := by
  induction o generalizing d with
  | nil => exact h
  | cons hd t ih =>
    simp only [Dict.update, List.foldl_cons] at *
    exact ih _ (by simp [Dict.containsKey_set, h])

theorem Dict.containsKey_update_right (d o : Dict) (k : String)
    (h : k ∈ o.keys) : (d.update o).containsKey k = true := by
  induction o generalizing d with
  | nil => simp [Dict.keys] at h
  | cons hd t ih =>
    simp only [Dict.update, List.foldl_cons]
    simp only [Dict.keys, List.map_cons, List.mem_cons] at h
    rcases h with h₁ | h₁
    · exact Dict.containsKey_update_left _ _ _ (by simp [Dict.containsKey_set, h₁])
    · exact ih _ h₁

theorem Dict.keys_set_of_not_mem (d : Dict) (k : String) (v : PyVal)
    (h : k ∉ d.keys) : (d.set k v).keys = d.keys ++ [k] := by
  induction d with
  | nil => simp [Dict.set, Dict.keys]
  | cons hd t ih =>
    obtain ⟨k₂, v₂⟩ := hd
    simp only [Dict.keys, List.map_cons, List.mem_cons] at h
    push_neg at h
    simp only [Dict.set, if_neg (Ne.symm h.1), Dict.keys, List.map_cons, List.cons_append]
    have := ih h.2
    simp only [Dict.keys] at this
    rw [this]

theorem Dict.mem_keys_iff_containsKey (d : Dict) (k : String) :
    k ∈ d.keys ↔ d.containsKey k = true := by
  induction d with
  | nil => simp [Dict.keys, Dict.containsKey, Dict.find?]
  | cons hd t ih =>
    obtain ⟨k₂, v₂⟩ := hd
    by_cases h : k₂ = k
    · subst h
      simp [Dict.keys, Dict.containsKey, Dict.find?]
    · simp only [Dict.keys, List.map_cons, List.mem_cons, Dict.containsKey, Dict.find?,
        if_neg h]
      constructor
      · intro hm
        rcases hm with hm | hm
        · exact absurd hm.symm h
        · exact (ih.mp hm)
      · intro hc
        exact Or.inr (ih.mpr hc)

/-! ## Supporting lemmas for the claim theorems -/

theorem dedupLoop_sublist (l : List Dict) : ∀ seen, List.Sublist (dedupLoop seen l) l := by
  induction l with
  | nil => intro seen; simp [dedupLoop]
  | cons p rest ih =>
    intro seen
    by_cases hc : (seen.any fun s => similarityExceeds (titleLower p).data s.data) = true
    · simpa [dedupLoop, hc] using (ih seen).trans (List.sublist_cons_self p rest)
    · simpa [dedupLoop, hc] using (ih (seen ++ [titleLower p])).cons₂ p

theorem dedupLoop_invariant (l : List Dict) : ∀ seen,
    (∀ q ∈ dedupLoop seen l, ∀ s ∈ seen, ratioQ (titleLower q).data s.data ≤ 4 / 5) ∧
    List.Pairwise dedupRel (dedupLoop seen l) := by
  induction l with
  | nil => intro seen; simp [dedupLoop]
  | cons p rest ih =>
    intro seen
    by_cases hc : (seen.any fun s => similarityExceeds (titleLower p).data s.data) = true
    · simpa [dedupLoop, hc] using ih seen
    · have hnot : ∀ s ∈ seen, ¬ (similarityExceeds (titleLower p).data s.data = true) := by
        simpa [List.any_eq_true] using hc
      have hle : ∀ s ∈ seen, ratioQ (titleLower p).data s.data ≤ 4 / 5 := by
        intro s hs
        have := hnot s hs
        rw [similarityExceeds_iff] at this
        exact le_of_not_lt this
      obtain ⟨ih1, ih2⟩ := ih (seen ++ [titleLower p])
      simp only [dedupLoop, hc, if_false, Bool.false_eq_true]
      refine ⟨?_, ?_⟩
      · intro q hq s hs
        rcases List.mem_cons.mp hq with hq₁ | hq₁
        · subst hq₁
          exact hle s hs
        · exact ih1 q hq₁ s (List.mem_append_left _ hs)
      · refine List.Pairwise.cons ?_ ih2
        intro q hq
        exact ih1 q hq (titleLower p) (by simp)

theorem ensureStep_preserves (s : Dict) (g f : String)
    (h : s.containsKey f = true) : (ensureStep s g).containsKey f = true := by
  unfold ensureStep
  by_cases hc : s.containsKey g = true
  · simp [hc, h]
  · simp [hc, Dict.containsKey_set, h]

theorem ensureFold_preserves (fs : List String) (s : Dict) (f : String)
    (h : s.containsKey f = true) :
    (fs.foldl ensureStep s).containsKey f = true := by
  induction fs generalizing s with
  | nil => exact h
  | cons g t ih => exact ih _ (ensureStep_preserves s g f h)

theorem ensureFold_containsKey (fs : List String) (s : Dict) (f : String)
    (h : f ∈ fs) : (fs.foldl ensureStep s).containsKey f = true := by
  induction fs generalizing s with
  | nil => simp at h
  | cons g t ih =>
    rcases List.mem_cons.mp h with h₁ | h₁
    · subst h₁
      refine ensureFold_preserves t _ f ?_
      unfold ensureStep
      by_cases hc : s.containsKey f = true
      · simp [hc]
      · simp [hc, Dict.containsKey_set]
    · exact ih _ h₁

theorem optFold_find?_not_mem (paper : Dict) (fs : List String) (acc : Dict)
    (k : String) (hk : k ∉ fs) :
    (fs.foldl (optStep paper) acc).find? k = acc.find? k := by
  induction fs generalizing acc with
  | nil => rfl
  | cons f t ih =>
    have hne : k ≠ f := fun h => hk (by simp [h])
    have hkt : k ∉ t := fun h => hk (by simp [h])
    simp only [List.foldl_cons]
    rw [ih _ hkt]
    unfold optStep
    by_cases hc : paper.containsKey f = true
    · simp [hc, Dict.find?_set, hne]
    · simp [hc]

theorem optFold_keys (paper : Dict) (fs : List String) (acc : Dict)
    (hnd : fs.Nodup) (hdisj : ∀ f ∈ fs, f ∉ acc.keys) :
    (fs.foldl (optStep paper) acc).keys =
      acc.keys ++ fs.filter (fun f => paper.containsKey f) := by
  induction fs generalizing acc with
  | nil => simp
  | cons f t ih =>
    have hndt : t.Nodup := (List.nodup_cons.mp hnd).2
    have hfnt : f ∉ t := (List.nodup_cons.mp hnd).1
    simp only [List.foldl_cons]
    by_cases hc : paper.containsKey f = true
    · have hkeys : (optStep paper acc f).keys = acc.keys ++ [f] := by
        unfold optStep
        simp [hc, Dict.keys_set_of_not_mem _ _ _ (hdisj f (by simp))]
      have hdisj₂ : ∀ g ∈ t, g ∉ (optStep paper acc f).keys := by
        intro g hg
        rw [hkeys]
        simp only [List.mem_append, List.mem_singleton]
        rintro (h₁ | h₁)
        · exact hdisj g (by simp [hg]) h₁
        · exact hfnt (h₁ ▸ hg)
      rw [ih _ hndt hdisj₂, hkeys]
      simp [List.filter_cons, hc]
    · have hid : optStep paper acc f = acc := by
        unfold optStep
        simp [hc]
      rw [hid, ih _ hndt (fun g hg => hdisj g (by simp [hg]))]
      simp [List.filter_cons, hc]

theorem arxivLoop_eq_filterMap {Entry : Type} (parse : Entry → Except String Dict)
    (l : List Entry) :
    arxivLoop parse l = l.filterMap (fun e => (parse e).toOption) := by
  induction l with
  | nil => rfl
  | cons e es ih =>
    cases hp : parse e <;> simp [arxivLoop, hp, List.filterMap_cons, Except.toOption, ih]

theorem mapLookup_classification_mem (c lbl : String)
    (h : mapLookup classificationMap c = some lbl) : lbl ∈ classifyLabels := by
  unfold classificationMap mapLookup at h
  simp only [mapLookup] at h
  split_ifs at h <;> simp_all [classifyLabels]

theorem scanCategories_mem (cats : List String) (lbl : String)
    (h : scanCategories cats = some lbl) : lbl ∈ classifyLabels := by
  induction cats with
  | nil => simp [scanCategories] at h
  | cons c cs ih =>
    unfold scanCategories at h
    cases hm : mapLookup classificationMap c with
    | some l =>
      rw [hm] at h
      simp at h
      exact h ▸ mapLookup_classification_mem c l hm
    | none =>
      rw [hm] at h
      exact ih h

theorem cleanedRequired_find?_title (paper : Dict) :
    (cleanedRequired paper).find? "title" = some (requiredValue paper "title" .str) := by
  unfold cleanedRequired requiredFields
  simp [Dict.find?_set, Dict.find?]

theorem cleanedRequired_find?_abstract (paper : Dict) :
    (cleanedRequired paper).find? "abstract" = some (requiredValue paper "abstract" .str) := by
  unfold cleanedRequired requiredFields
  simp [Dict.find?_set, Dict.find?]

theorem cleanedAll_find?_title (paper : Dict) :
    (cleanedAll paper).find? "title" = some (requiredValue paper "title" .str) := by
  unfold cleanedAll
  rw [optFold_find?_not_mem paper _ _ _ (by simp [optionalFields])]
  exact cleanedRequired_find?_title paper

theorem cleanedAll_find?_abstract (paper : Dict) :
    (cleanedAll paper).find? "abstract" = some (requiredValue paper "abstract" .str) := by
  unfold cleanedAll
  rw [optFold_find?_not_mem paper _ _ _ (by simp [optionalFields])]
  exact cleanedRequired_find?_abstract paper

/-! ## Claim theorems -/

/-- C6: for every total_limit ≥ 0 and every result of the source fetches, the
aggregator's `fetch(total_limit)` returns at most `total_limit` records (the
deduplicated result is truncated to `total_limit`). -/
theorem c6_aggregator_length_le (hfResult : Except String (List Dict))
    (total_limit : Nat) :
    (smartRun hfResult total_limit).length ≤ total_limit := by
  unfold smartRun
  cases hfResult <;> exact List.length_take_le _ _

/-- C9: for every entry parsed by the HuggingFace adapter, the record's
initial `technical_summary` equals the record's abstract (the stripped feed
summary) when it has at most 500 characters, and equals its first 500
characters followed by an ellipsis when longer. -/
theorem c9_hf_initial_technical_summary (fetchedAt : String) (e : HFEntry) :
    pyGet (hfParseEntry fetchedAt e) "abstract" = .vStr (pyStrip (e.summary.getD "")) ∧
    ((pyStrip (e.summary.getD "")).length ≤ 500 →
      pyGet (hfParseEntry fetchedAt e) "technical_summary" =
        .vStr (pyStrip (e.summary.getD ""))) ∧
    (500 < (pyStrip (e.summary.getD "")).length →
      pyGet (hfParseEntry fetchedAt e) "technical_summary" =
        .vStr (String.mk ((pyStrip (e.summary.getD "")).data.take 500) ++ "...")) := by
  refine ⟨?_, ?_, ?_⟩
  · simp [hfParseEntry, pyGet, pyGetD, Dict.find?]
  · intro h
    have h₂ : ¬ (500 < (pyStrip (e.summary.getD "")).length) := by omega
    simp [hfParseEntry, pyGet, pyGetD, Dict.find?, h₂]
  · intro h
    simp [hfParseEntry, pyGet, pyGetD, Dict.find?, h]

set_option maxRecDepth 10000 in
theorem c9_hf_initial_technical_summary_witness :
    pyGet (hfParseEntry "now" hfShortEntry) "technical_summary" =
      .vStr (pyStrip (hfShortEntry.summary.getD "")) ∧
    pyGet (hfParseEntry "now" hfLongEntry) "technical_summary" =
      .vStr (String.mk ((pyStrip (hfLongEntry.summary.getD "")).data.take 500) ++ "...") :=
  ⟨(c9_hf_initial_technical_summary "now" hfShortEntry).2.1 (by decide),
   (c9_hf_initial_technical_summary "now" hfLongEntry).2.2 (by decide)⟩

/-- C3: enrichment is one-to-one and order-preserving, and a record whose
generation-service call raises appears in the output unchanged while
successfully summarized records appear as their summaries. -/
theorem c3_enrichment_order_and_failure (llm : Prompt → Except String String)
    (jsonParse : String → JsonOutcome) (papers : List Dict) :
    (runSummarizer llm jsonParse papers).length = papers.length ∧
    (∀ i p, papers.get? i = some p →
      (∀ err, summarizePaperE llm jsonParse p = .error err →
        (runSummarizer llm jsonParse papers).get? i = some p) ∧
      (∀ s, summarizePaperE llm jsonParse p = .ok s →
        (runSummarizer llm jsonParse papers).get? i = some s)) := by
  constructor
  · induction papers with
    | nil => rfl
    | cons q t ih => simp [runSummarizer, ih]
  · induction papers with
    | nil =>
      intro i p h
      simp at h
    | cons q t ih =>
      intro i p h
      cases i with
      | zero =>
        simp only [List.get?] at h
        injection h with h
        subst h
        constructor
        · intro err he
          simp [runSummarizer, he]
        · intro s hs
          simp [runSummarizer, hs]
      | succ n =>
        simp only [List.get?] at h
        have hn := ih n p h
        constructor
        · intro err he
          simpa [runSummarizer] using hn.1 err he
        · intro s hs
          simpa [runSummarizer] using hn.2 s hs

theorem c3_enrichment_order_and_failure_witness :
    (runSummarizer llmPartial jpNone [failPaper, okPaper]).get? 0 = some failPaper ∧
    (runSummarizer llmPartial jpNone [failPaper, okPaper]).get? 1 = some okEnriched :=
  ⟨((c3_enrichment_order_and_failure llmPartial jpNone [failPaper, okPaper]).2
      0 failPaper rfl).1 "service down" rfl,
   ((c3_enrichment_order_and_failure llmPartial jpNone [failPaper, okPaper]).2
      1 okPaper rfl).2 okEnriched rfl⟩

/-- C7: a failed ArXiv fetch yields an empty sequence rather than an
exception; per-entry parse failures are skipped without aborting the batch
(the output is exactly the successfully parsed prefix entries); and every
aggregator output record comes from the HuggingFace fetch result, so the
aggregator still returns the HuggingFace records when ArXiv fails. -/
theorem c7_failure_isolation :
    (∀ (Entry : Type) (limit : Nat) (parse : Entry → Except String Dict)
        (err : String), arxivRun limit (.error err) parse = []) ∧
    (∀ (Entry : Type) (limit : Nat) (entries : List Entry)
        (parse : Entry → Except String Dict),
      arxivRun limit (.ok entries) parse =
        ((entries.take limit).filterMap (fun e => (parse e).toOption)).take limit) ∧
    (∀ (hf : List Dict) (tl : Nat) (p : Dict), p ∈ smartRun (.ok hf) tl → p ∈ hf) := by
  refine ⟨?_, ?_, ?_⟩
  · intro Entry limit parse err
    rfl
  · intro Entry limit entries parse
    simp [arxivRun, arxivLoop_eq_filterMap]
  · intro hf tl p hp
    simp only [smartRun] at hp
    have h₁ : List.Sublist (dedupPapers hf) hf := dedupLoop_sublist hf []
    exact h₁.subset ((List.take_sublist _ _).subset hp)

theorem c7_failure_isolation_witness : c7paper ∈ [c7paper] :=
  c7_failure_isolation.2.2 [c7paper] 3 c7paper
    (by rw [show smartRun (.ok [c7paper]) 3 = [c7paper] from rfl]; exact List.mem_singleton.mpr rfl)

/-- C5: classification is a pure total function into a fixed label set (never
null): if some subject tag is in the classification map, the mapped label of
the first such tag is returned; otherwise keywords are tested in fixed
precedence (vision, then NLP, then RL, then neural/deep) over the lowercased
title+abstract, defaulting to "Machine Learning". -/
theorem c5_classify_total_and_precedence (cats : List String) (title abstract : String) :
    classifyPaper cats title abstract ∈ classifyLabels ∧
    (∀ lbl, scanCategories cats = some lbl → classifyPaper cats title abstract = lbl) ∧
    (scanCategories cats = none →
      (anyWord visionWords title abstract = true →
        classifyPaper cats title abstract = "Computer Vision") ∧
      (anyWord visionWords title abstract = false →
        anyWord nlpWords title abstract = true →
        classifyPaper cats title abstract = "Natural Language Processing") ∧
      (anyWord visionWords title abstract = false →
        anyWord nlpWords title abstract = false →
        anyWord rlWords title abstract = true →
        classifyPaper cats title abstract = "Reinforcement Learning") ∧
      (anyWord visionWords title abstract = false →
        anyWord nlpWords title abstract = false →
        anyWord rlWords title abstract = false →
        anyWord deepWords title abstract = true →
        classifyPaper cats title abstract = "Deep Learning") ∧
      (anyWord visionWords title abstract = false →
        anyWord nlpWords title abstract = false →
        anyWord rlWords title abstract = false →
        anyWord deepWords title abstract = false →
        classifyPaper cats title abstract = "Machine Learning")) := by
  cases hscan : scanCategories cats with
  | some lbl₀ =>
    have hcl : classifyPaper cats title abstract = lbl₀ := by
      unfold classifyPaper
      rw [hscan]
    refine ⟨hcl ▸ scanCategories_mem cats lbl₀ hscan, ?_, ?_⟩
    · intro lbl h
      injection h with h
      rw [hcl, h]
    · intro h
      cases h
  | none =>
    refine ⟨?_, ?_, ?_⟩
    · unfold classifyPaper
      rw [hscan]
      simp only []
      split_ifs <;> simp [classifyLabels]
    · intro lbl h
      cases h
    · intro _
      refine ⟨?_, ?_, ?_, ?_, ?_⟩
      · intro hv
        unfold anyWord at hv
        unfold classifyPaper
        rw [hscan]
        simp [hv]
      · intro hv hn
        unfold anyWord at hv hn
        unfold classifyPaper
        rw [hscan]
        simp [hv, hn]
      · intro hv hn hr
        unfold anyWord at hv hn hr
        unfold classifyPaper
        rw [hscan]
        simp [hv, hn, hr]
      · intro hv hn hr hd
        unfold anyWord at hv hn hr hd
        unfold classifyPaper
        rw [hscan]
        simp [hv, hn, hr, hd]
      · intro hv hn hr hd
        unfold anyWord at hv hn hr hd
        unfold classifyPaper
        rw [hscan]
        simp [hv, hn, hr, hd]

theorem c5_classify_total_and_precedence_witness :
    classifyPaper ["cs.NE"] "t" "a" = "Neural Computing" ∧
    classifyPaper [] "A vision study" "images" = "Computer Vision" ∧
    classifyPaper [] "q" "q" = "Machine Learning" :=
  ⟨(c5_classify_total_and_precedence ["cs.NE"] "t" "a").2.1 "Neural Computing" rfl,
   ((c5_classify_total_and_precedence [] "A vision study" "images").2.2 rfl).1 (by decide),
   ((c5_classify_total_and_precedence [] "q" "q").2.2 rfl).2.2.2.2
     (by decide) (by decide) (by decide) (by decide)⟩

/-- C4: the validator never returns a record with an empty (falsy) title or
abstract; it returns null exactly when title or abstract is still empty
after the type-based defaulting of missing required fields. -/
theorem c4_clean_rejects_empty (paper : Dict) :
    (∀ r, cleanPaperData paper = some r →
      (pyGet r "title").truthy = true ∧ (pyGet r "abstract").truthy = true) ∧
    (cleanPaperData paper = none ↔
      ((requiredValue paper "title" .str).truthy = false ∨
        (requiredValue paper "abstract" .str).truthy = false)) := by
  have ht : pyGet (cleanedAll paper) "title" = requiredValue paper "title" .str := by
    unfold pyGet pyGetD
    rw [cleanedAll_find?_title]
  have ha : pyGet (cleanedAll paper) "abstract" = requiredValue paper "abstract" .str := by
    unfold pyGet pyGetD
    rw [cleanedAll_find?_abstract]
  constructor
  · intro r hr
    unfold cleanPaperData at hr
    by_cases hc : (!(pyGet (cleanedAll paper) "title").truthy
        || !(pyGet (cleanedAll paper) "abstract").truthy) = true
    · rw [if_pos hc] at hr
      cases hr
    · rw [if_neg hc] at hr
      injection hr with hr
      subst hr
      simp only [Bool.or_eq_true, Bool.not_eq_true', not_or, Bool.not_eq_false] at hc
      exact ⟨hc.1, hc.2⟩
  · unfold cleanPaperData
    rw [ht, ha]
    constructor
    · intro h
      by_cases hc : (!(requiredValue paper "title" FieldTy.str).truthy
          || !(requiredValue paper "abstract" FieldTy.str).truthy) = true
      · simpa only [Bool.or_eq_true, Bool.not_eq_true'] using hc
      · rw [if_neg hc] at h
        cases h
    · intro h
      have hc : (!(requiredValue paper "title" FieldTy.str).truthy
          || !(requiredValue paper "abstract" FieldTy.str).truthy) = true := by
        rcases h with h | h <;> simp [h]
      rw [if_pos hc]

theorem c4_clean_rejects_empty_witness :
    ((pyGet (cleanedAll goodPaper) "title").truthy = true ∧
      (pyGet (cleanedAll goodPaper) "abstract").truthy = true) ∧
    cleanPaperData [] = none :=
  ⟨(c4_clean_rejects_empty goodPaper).1 (cleanedAll goodPaper) rfl,
   (c4_clean_rejects_empty []).2.mpr (Or.inl rfl)⟩

theorem cleanedRequired_keys (paper : Dict) :
    (cleanedRequired paper).keys =
      ["title", "abstract", "authors", "primary_category", "technical_summary"] := rfl

theorem cleanedAll_keys (paper : Dict) :
    (cleanedAll paper).keys =
      ["title", "abstract", "authors", "primary_category", "technical_summary"]
        ++ optionalFields.filter (fun f => paper.containsKey f) := by
  unfold cleanedAll
  rw [optFold_keys paper optionalFields (cleanedRequired paper) (by decide) ?_,
    cleanedRequired_keys]
  intro f hf
  rw [cleanedRequired_keys]
  fin_cases hf <;> decide

/-- C10: a cleaned record holds exactly the five required fields followed by
the present optional fields; `paper_url`, `keywords`, `source`, `categories`
and `published_date` never appear in it. -/
theorem c10_clean_output_fields (paper r : Dict) (h : cleanPaperData paper = some r) :
    r.keys = ["title", "abstract", "authors", "primary_category", "technical_summary"]
        ++ optionalFields.filter (fun f => paper.containsKey f) ∧
    "paper_url" ∉ r.keys ∧ "keywords" ∉ r.keys ∧ "source" ∉ r.keys ∧
    "categories" ∉ r.keys ∧ "published_date" ∉ r.keys := by
  have hr : r = cleanedAll paper := by
    unfold cleanPaperData at h
    by_cases hc : (!(pyGet (cleanedAll paper) "title").truthy
        || !(pyGet (cleanedAll paper) "abstract").truthy) = true
    · rw [if_pos hc] at h
      cases h
    · rw [if_neg hc] at h
      injection h with h
      exact h.symm
  subst hr
  have hnot : ∀ k : String,
      k ∉ (["title", "abstract", "authors", "primary_category",
        "technical_summary"] : List String) →
      k ∉ optionalFields → k ∉ (cleanedAll paper).keys := by
    intro k hk₁ hk₂ hmem
    rw [cleanedAll_keys] at hmem
    rcases List.mem_append.mp hmem with hm | hm
    · exact hk₁ hm
    · exact hk₂ (List.mem_of_mem_filter hm)
  exact ⟨cleanedAll_keys paper,
    hnot "paper_url" (by decide) (by decide),
    hnot "keywords" (by decide) (by decide),
    hnot "source" (by decide) (by decide),
    hnot "categories" (by decide) (by decide),
    hnot "published_date" (by decide) (by decide)⟩

theorem c10_clean_output_fields_witness :
    "paper_url" ∉ (cleanedAll c10paper).keys ∧ "keywords" ∉ (cleanedAll c10paper).keys :=
  ⟨(c10_clean_output_fields c10paper (cleanedAll c10paper) rfl).2.1,
   (c10_clean_output_fields c10paper (cleanedAll c10paper) rfl).2.2.1⟩

theorem ensureNine_fallback (c : PyVal) (r : String) :
    ensureNine (fallbackSummary c r) = fallbackSummary c r := rfl

/-- C8 counterexample: a generation call that succeeds with the valid JSON
array text `"[1]"`: `json.loads` returns a list, the field-defaulting loop
raises `TypeError`, `_run` appends the original record, and the output
record carries none of the nine summary fields (in particular no
raw-response `technical_summary`) — refuting the claim as stated. -/
theorem c8_nonobject_counterexample :
    runSummarizer llmArray jpArray [c8paper] = [c8paper] ∧
    llmArray (Prompt.mk (.vStr "Machine Learning") (.vStr "P") (.vStr "")
      "Emphasize methodology, algorithms, and theoretical contributions.") = .ok "[1]" ∧
    summarizePaperE llmArray jpArray c8paper = .error "TypeError: summary is not a dict" ∧
    c8paper.containsKey "key_contributions" = false ∧
    c8paper.containsKey "technical_summary" = false ∧
    c8paper.containsKey "keywords" = false :=
  ⟨rfl, rfl, rfl, rfl, rfl, rfl⟩

/-- C8 (amended): when the response parses as a JSON object or raises a
decode error, `_summarize_paper` succeeds and all nine summary fields are
present in the result; on a decode failure the raw response text becomes the
`technical_summary` with the other enrichment fields empty or defaulted
(category echoed, difficulty Intermediate); and when the response is valid
JSON but not an object, `_summarize_paper` raises instead (so `_run` passes
the original record through unenriched). -/
theorem c8_summary_fields_present (jsonParse : String → JsonOutcome)
    (paper : Dict) (response : String) :
    (∀ r, summarizeCore jsonParse paper response = .ok r →
      ∀ f ∈ requiredNine, r.containsKey f = true) ∧
    (jsonParse response = .decodeError →
      ∃ r, summarizeCore jsonParse paper response = .ok r ∧
        pyGet r "technical_summary" = .vStr response ∧
        pyGet r "key_contributions" = .vList [] ∧
        pyGet r "methodology" = .vStr "" ∧
        pyGet r "significance" = .vStr "" ∧
        pyGet r "practical_applications" = .vStr "" ∧
        pyGet r "limitations" = .vStr "" ∧
        pyGet r "category" = pyGetD paper "primary_category" (.vStr "Machine Learning") ∧
        pyGet r "difficulty_level" = .vStr "Intermediate" ∧
        pyGet r "keywords" = .vList []) ∧
    (jsonParse response = .nonObj →
      summarizeCore jsonParse paper response = .error "TypeError: summary is not a dict") := by
  refine ⟨?_, ?_, ?_⟩
  · intro r hr f hf
    unfold summarizeCore at hr
    cases hjp : jsonParse response with
    | decodeError =>
      rw [hjp] at hr
      injection hr with hr
      subst hr
      apply Dict.containsKey_update_right
      rw [Dict.mem_keys_iff_containsKey]
      exact ensureFold_containsKey requiredNine _ f hf
    | obj s =>
      rw [hjp] at hr
      injection hr with hr
      subst hr
      apply Dict.containsKey_update_right
      rw [Dict.mem_keys_iff_containsKey]
      exact ensureFold_containsKey requiredNine _ f hf
    | nonObj =>
      rw [hjp] at hr
      cases hr
  · intro hjp
    refine ⟨paper.update (ensureNine (fallbackSummary
      (pyGetD paper "primary_category" (.vStr "Machine Learning")) response)),
      ?_, ?_, ?_, ?_, ?_, ?_, ?_, ?_, ?_, ?_⟩
    · simp [summarizeCore, hjp]
    all_goals
      rw [ensureNine_fallback]
      simp [Dict.update, fallbackSummary, pyGet, pyGetD, Dict.find?_set]
  · intro hjp
    simp only [summarizeCore, hjp]

theorem c8_summary_fields_present_witness :
    summarizeCore jpArray c8paper "[1]" = .error "TypeError: summary is not a dict" ∧
    (c8paper.update (ensureNine (fallbackSummary (.vStr "Machine Learning")
      "raw text"))).containsKey "keywords" = true ∧
    (∃ r, summarizeCore jpNone c8paper "raw text" = .ok r ∧
      pyGet r "technical_summary" = .vStr "raw text" ∧
      pyGet r "key_contributions" = .vList [] ∧
      pyGet r "methodology" = .vStr "" ∧
      pyGet r "significance" = .vStr "" ∧
      pyGet r "practical_applications" = .vStr "" ∧
      pyGet r "limitations" = .vStr "" ∧
      pyGet r "category" = pyGetD c8paper "primary_category" (.vStr "Machine Learning") ∧
      pyGet r "difficulty_level" = .vStr "Intermediate" ∧
      pyGet r "keywords" = .vList []) :=
  ⟨(c8_summary_fields_present jpArray c8paper "[1]").2.2 rfl,
   (c8_summary_fields_present jpNone c8paper "raw text").1
     (c8paper.update (ensureNine (fallbackSummary (.vStr "Machine Learning") "raw text")))
     rfl "keywords" (by decide),
   (c8_summary_fields_present jpNone c8paper "raw text").2.1 rfl⟩

/-- C2 counterexample: the deduplicator accepts both of these records (their
raw lowercased titles have ratio 4/34), yet their case-insensitive,
whitespace-normalized titles are identical, with similarity ratio 1 > 0.8 —
so the output does contain a pair whose normalized title-similarity exceeds
0.8, refuting the claim as stated. -/
theorem c2_whitespace_normalized_counterexample :
    dedupPapers [c2r1, c2r2] = [c2r1, c2r2] ∧
    ratioQ (normTitle c2r1) (normTitle c2r2) > 4 / 5 :=
  ⟨rfl, (similarityExceeds_iff (normTitle c2r1) (normTitle c2r2)).mp rfl⟩

/-- C2 (amended): in the aggregator's deduplicated output, every later
record's lowercased title has similarity ratio at most 0.8 against every
earlier record's lowercased title (titles are lowercased but not
whitespace-normalized), and the output preserves fetch order (it is a
sublist of the input); a candidate was discarded exactly when its ratio
against some already-accepted lowercased title exceeded 0.8 (this is the
recursion of `dedupLoop`). -/
theorem c2_dedup_pairwise_similarity (papers : List Dict)
    (_h : ∀ p ∈ papers, ∃ s, pyGetD p "title" (.vStr "") = .vStr s) :
    List.Pairwise dedupRel (dedupPapers papers) ∧
    List.Sublist (dedupPapers papers) papers :=
  ⟨(dedupLoop_invariant papers []).2, dedupLoop_sublist papers []⟩

theorem c2_dedup_pairwise_similarity_witness :
    List.Pairwise dedupRel (dedupPapers [c2r1, c2r2]) ∧
    List.Sublist (dedupPapers [c2r1, c2r2]) [c2r1, c2r2] :=
  c2_dedup_pairwise_similarity [c2r1, c2r2] (by
    intro p hp
    rcases List.mem_cons.mp hp with h | h
    · exact ⟨"ab", by rw [h]; rfl⟩
    · rw [List.mem_singleton.mp h]
      exact ⟨"ab                              ", rfl⟩)

/-- C1: evaluation at the claim's failing input. With `total_limit = 5` and
two HuggingFace records fetched, `SmartResearchFetcher._run` returns exactly
those two HuggingFace-sourced records: it makes no ArXiv request at all (no
80/20 partition, no "at least one record from ArXiv"), contradicting both
the claim and the function's own docstring, which says it fetches from both
sources when `total_limit > 0`. -/
theorem c1_smart_fetcher_is_hf_only :
    smartRun (.ok [c1hfA, c1hfB]) 5 = [c1hfA, c1hfB] ∧
    pyGet c1hfA "source" = .vStr "huggingface_trending" ∧
    pyGet c1hfB "source" = .vStr "huggingface_trending" ∧
    (smartRun (.ok [c1hfA, c1hfB]) 5).length = 2 :=
  ⟨rfl, rfl, rfl, rfl⟩
